import Mathlib

/-!
Shallow embedding of `src/src/curl_connect.cpp` (namespace `conn` of the
TDAmeritradeAPI repository): the shared-connection registry used by
`SharedHTTPConnection`, the per-request reconfiguration sequence performed by
its `execute`, URL-scheme validation, and the form-field conversion
utilities `pairs_to_fields_str` / `fields_str_to_map`.

Modelling conventions: machine integers are `Int` (`int nref`, `long timeout`);
C++ exceptions are `Except Err`; `assert` failures (contract violations, which
abort the process) are `Option.none` results of the registry primitives;
strings are `String` except in the field-string utilities, which work on
`List Char` (the C++ code iterates over `std::string` character by character).
-/

/-- The `HttpMethod` enum used throughout curl_connect.cpp. -/
inductive HttpMethod where
  | http_get
  | http_post
  | http_delete
  | http_put
deriving DecidableEq

/-- The `HTTPConnection::Protocol` state (`none` before any URL is set). -/
inductive Protocol where
  | none
  | http
  | https
deriving DecidableEq

/- ----------------------------------------------------------------------
Field-string utilities (curl_connect.cpp:853-894).
---------------------------------------------------------------------- -/

/-- Body of one iteration of the `fields_str_to_map` loop
(curl_connect.cpp:877-887): an empty segment yields nothing; otherwise the
segment is split at the first `'='` (`find(s_b, s_e, '=')`) into key and
value, and a segment without `'='` yields nothing. -/
def parseSeg (s : List Char) : Option (List Char × List Char) :=
  if s = [] then none
  else
    match s.dropWhile (fun a => a ≠ '=') with
    | [] => none
    | _ :: v => some (s.takeWhile (fun a => a ≠ '='), v)

/-- The segmentation performed by the `do … while` loop of
`fields_str_to_map` (curl_connect.cpp:875-891): `find_first_of` locates the
next `'&'`, the segment before it is taken, and iteration continues after
the separator; reaching the end emits a final (possibly empty) segment. -/
def splitAmp : List Char → List (List Char)
  | [] => [[]]
  | c :: rest =>
    if c = '&' then [] :: splitAmp rest
    else
      match splitAmp rest with
      | [] => [[c]]
      | s :: ss => (c :: s) :: ss

/-- The `fields_str_to_map` (curl_connect.cpp:868-894). -/
def fields_str_to_map (fstr : List Char) : List (List Char × List Char) :=
  (splitAmp fstr).filterMap parseSeg

/-- The `pairs_to_fields_str` (curl_connect.cpp:853-865): write `k=v&` for every
pair into a string stream, then erase the final character when non-empty. -/
def pairs_to_fields_str (fields : List (List Char × List Char)) : List Char :=
  let s := (fields.map (fun f => f.1 ++ '=' :: f.2 ++ ['&'])).flatten
  if s = [] then s else s.dropLast

theorem splitAmp_ne_nil (l : List Char) : splitAmp l ≠ [] := by
  induction l with
  | nil => simp [splitAmp]
  | cons c rest ih =>
    simp only [splitAmp]
    split
    · simp
    · cases hs : splitAmp rest <;> simp

theorem splitAmp_append (s rest : List Char) (hs : '&' ∉ s) :
    splitAmp (s ++ '&' :: rest) = s :: splitAmp rest := by
  induction s with
  | nil => simp [splitAmp]
  | cons c s' ih =>
    have hc : ¬(c = '&') := fun h => hs (by simp [h])
    have hs' : '&' ∉ s' := fun h => hs (List.mem_cons_of_mem _ h)
    simp only [List.cons_append, splitAmp, if_neg hc, List.append_eq]
    rw [ih hs']

theorem parseSeg_eq_none_of_no_eq (s : List Char) (h : '=' ∉ s) :
    parseSeg s = none := by
  rcases eq_or_ne s [] with rfl | hne
  · simp [parseSeg]
  · have hd : s.dropWhile (fun a => a ≠ '=') = [] := by
      rw [List.dropWhile_eq_nil_iff]
      intro x hx
      simp only [ne_eq, decide_eq_true_eq]
      exact fun he => h (he ▸ hx)
    simp only [ne_eq, decide_not] at hd
    simp [parseSeg, hne, hd]

theorem fstm_step (s rest : List Char) (hs : '&' ∉ s) :
    fields_str_to_map (s ++ '&' :: rest)
      = (parseSeg s).toList ++ fields_str_to_map rest := by
  rw [fields_str_to_map, splitAmp_append s rest hs, List.filterMap_cons]
  cases h : parseSeg s <;> simp [fields_str_to_map]

/-- C9: serializing the field pairs `[("a","1"),("b","2")]` with
`pairs_to_fields_str` and parsing back with `fields_str_to_map` yields the
same pairs; when parsing any fields string, an empty segment between two
consecutive `'&'` separators is skipped, and a non-empty segment containing
no `'='` is dropped from the result. -/
theorem c9_fields_roundtrip_parse :
    (fields_str_to_map (pairs_to_fields_str [(['a'], ['1']), (['b'], ['2'])])
        = [(['a'], ['1']), (['b'], ['2'])])
    ∧ (∀ a rest, '&' ∉ a →
        fields_str_to_map (a ++ '&' :: '&' :: rest)
          = fields_str_to_map (a ++ '&' :: rest))
    ∧ (∀ s rest, '&' ∉ s → s ≠ [] → '=' ∉ s →
        fields_str_to_map (s ++ '&' :: rest) = fields_str_to_map rest) := by
  refine ⟨by decide, ?_, ?_⟩
  · intro a rest ha
    have hskip : fields_str_to_map ('&' :: rest) = fields_str_to_map rest := by
      have h0 := fstm_step [] rest (by simp)
      simpa [parseSeg] using h0
    rw [fstm_step a ('&' :: rest) ha, fstm_step a rest ha, hskip]
  · intro s rest hs hne he
    rw [fstm_step s rest hs, parseSeg_eq_none_of_no_eq s he]
    simp

/-- Witness for C9: the skip and drop clauses at concrete inputs. -/
theorem c9_witness :
    fields_str_to_map (['x'] ++ '&' :: '&' :: ['y', '=', 'z'])
        = fields_str_to_map (['x'] ++ '&' :: ['y', '=', 'z'])
    ∧ fields_str_to_map (['q'] ++ '&' :: ['k', '=', 'v'])
        = fields_str_to_map ['k', '=', 'v'] :=
  ⟨c9_fields_roundtrip_parse.2.1 ['x'] ['y', '=', 'z'] (by decide),
   c9_fields_roundtrip_parse.2.2 ['q'] ['k', '=', 'v']
     (by decide) (by decide) (by decide)⟩

/- ----------------------------------------------------------------------
The transport-option wrapper: `CurlConnection::CurlConnectionImpl_`
(curl_connect.cpp:40-387) and `HTTPConnection` (curl_connect.cpp:552-617).
---------------------------------------------------------------------- -/

/-- The CURL option slots stored in `CurlConnectionImpl_::_options`
(a `map<CURLoption, string>`, curl_connect.cpp:56).  The callback/pointer
plumbing (`CURLOPT_WRITEFUNCTION`, `CURLOPT_WRITEDATA`, header callbacks,
`CURLOPT_ERRORBUFFER`) is elided: those slots hold runtime addresses and
never carry request parameters. -/
inductive COpt where
  | URL
  | SSL_VERIFYPEER
  | SSL_VERIFYHOST
  | CAINFO
  | ACCEPT_ENCODING
  | TCP_KEEPALIVE
  | HTTPGET
  | POST
  | CUSTOMREQUEST
  | COPYPOSTFIELDS
  | HTTPHEADER
  | TIMEOUT_MS
  | NOSIGNAL
  | SSL_OPTIONS
deriving DecidableEq

/-- The exceptions thrown by the translated code: `CurlException` (usage
errors: closed handle, invalid URL scheme) and `CurlConnectionError`
(transport failure, curl_connect.cpp:845-850).  `assert` failures are not
exceptions; they are modelled as `Option.none` results of the registry
primitives below. -/
inductive Err where
  | usage (msg : String)
  | connErr (code : Int) (msg : String)
deriving DecidableEq

/-- The `CurlConnectionImpl_` state: header list `_header` (the `curl_slist`,
as name/value pairs), handle validity `_handle` (`true` iff the `CURL*` is
non-null), and the stored option strings `_options`. -/
structure CurlImpl where
  _header : List (String × String)
  _handle : Bool
  _options : COpt → Option String

/-- The `CurlConnectionImpl_::set_option` (curl_connect.cpp:172-191): throws if
the handle has been closed, otherwise records the option value.  Rejection
of an option by the engine (`CurlOptionException`) is not modelled. -/
def CurlImpl.set_option (c : CurlImpl) (o : COpt) (v : String) :
    Except Err CurlImpl :=
  if c._handle = false then .error (.usage "connection/handle has been closed")
  else .ok { c with _options := fun x => if x = o then some v else c._options x }

/-- The `CurlConnectionImpl_::SET_url` (curl_connect.cpp:249-259): sets
`CURLOPT_URL` and `CURLOPT_SSL_OPTIONS = CURLSSLOPT_NO_REVOKE` (= 2). -/
def CurlImpl.SET_url (c : CurlImpl) (url : String) : Except Err CurlImpl := do
  let c ← c.set_option .URL url
  c.set_option .SSL_OPTIONS "2"

/-- The `CurlConnectionImpl_::SET_ssl_verify` (curl_connect.cpp:268-273). -/
def CurlImpl.SET_ssl_verify (c : CurlImpl) (b : Bool) : Except Err CurlImpl := do
  let c ← c.set_option .SSL_VERIFYPEER (if b then "1" else "0")
  c.set_option .SSL_VERIFYHOST (if b then "2" else "0")

/-- The `CurlConnectionImpl_::SET_ssl_verify_using_ca_bundle`
(curl_connect.cpp:275-280). -/
def CurlImpl.SET_ssl_verify_using_ca_bundle (c : CurlImpl) (path : String) :
    Except Err CurlImpl := do
  let c ← c.SET_ssl_verify true
  c.set_option .CAINFO path

/-- The `CurlConnectionImpl_::SET_encoding` (curl_connect.cpp:289-291). -/
def CurlImpl.SET_encoding (c : CurlImpl) (enc : String) : Except Err CurlImpl :=
  c.set_option .ACCEPT_ENCODING enc

/-- The `CurlConnectionImpl_::SET_keepalive` (curl_connect.cpp:293-295). -/
def CurlImpl.SET_keepalive (c : CurlImpl) (b : Bool) : Except Err CurlImpl :=
  c.set_option .TCP_KEEPALIVE (if b then "1" else "0")

/-- The `CurlConnectionImpl_::SET_timeout` (curl_connect.cpp:297-299):
`CURLOPT_TIMEOUT_MS = (timeout > 0 ? timeout : 0)`. -/
def CurlImpl.SET_timeout (c : CurlImpl) (timeout : Int) : Except Err CurlImpl :=
  c.set_option .TIMEOUT_MS (toString (if timeout > 0 then timeout else 0))

/-- The `CurlConnectionImpl_::ADD_headers` (curl_connect.cpp:308-327): throws on
a closed handle; an empty list is a no-op that does not touch
`CURLOPT_HTTPHEADER`; otherwise the pairs are appended to the `curl_slist`
and `CURLOPT_HTTPHEADER` is (re)set (its stored value is the list's address,
abstracted here as `""`). -/
def CurlImpl.ADD_headers (c : CurlImpl) (headers : List (String × String)) :
    Except Err CurlImpl :=
  if c._handle = false then .error (.usage "connection/handle has been closed")
  else if headers = [] then .ok c
  else
    let c1 := { c with _header := c._header ++ headers }
    c1.set_option .HTTPHEADER ""

/-- The `CurlConnectionImpl_::RESET_headers` (curl_connect.cpp:347-353): frees
the `curl_slist` and erases `CURLOPT_HTTPHEADER` from the option map; no
handle check. -/
def CurlImpl.RESET_headers (c : CurlImpl) : CurlImpl :=
  { c with _header := [],
           _options := fun x => if x = COpt.HTTPHEADER then none else c._options x }

/-- The `CurlConnectionImpl_::SET_fields(const string&)` (curl_connect.cpp:359-367):
throws on a closed handle; sets `CURLOPT_COPYPOSTFIELDS` only when the
string is non-empty. -/
def CurlImpl.SET_fields (c : CurlImpl) (fields : String) : Except Err CurlImpl :=
  if c._handle = false then .error (.usage "connection/handle has been closed")
  else if fields = "" then .ok c
  else c.set_option .COPYPOSTFIELDS fields

/-- The `HTTPConnection::_set_method` (curl_connect.cpp:554-574), acting on the
impl: `CURLOPT_HTTPGET=1` / `CURLOPT_POST=1` / `CURLOPT_CUSTOMREQUEST`. -/
def CurlImpl._set_method (c : CurlImpl) (meth : HttpMethod) : Except Err CurlImpl :=
  match meth with
  | .http_get => c.set_option .HTTPGET "1"
  | .http_post => c.set_option .POST "1"
  | .http_delete => c.set_option .CUSTOMREQUEST "DELETE"
  | .http_put => c.set_option .CUSTOMREQUEST "PUT"

/-- The `HTTPConnection`: a `CurlConnection` (pimpl) plus the protocol state
`_proto` and current method `_meth`. -/
structure HTTPConn where
  _pimpl : CurlImpl
  _proto : Protocol
  _meth : HttpMethod

/-- The `url.rfind(p, 0) == 0`: case-sensitive prefix test, as used by
`HTTPConnection::set_url` (curl_connect.cpp:603, 611). -/
def strStarts (p url : String) : Bool := p.toList.isPrefixOf url.toList

/-- The `HTTPConnection::set_url` (curl_connect.cpp:600-617), with the
process-wide `certificate_bundle_path` (curl_connect.cpp:549) passed
explicitly as `cbp`.  The returned flag records whether TLS verification was
(re)established during this call (the `_proto != Protocol::https` branch):
it instruments the call so that theorems can count TLS setups. -/
def HTTPConn.set_url (c : HTTPConn) (cbp : String) (url : String) :
    Except Err (HTTPConn × Bool) :=
  if strStarts "https://" url then
    if c._proto ≠ Protocol.https then
      match (if cbp = "" then c._pimpl.SET_ssl_verify true
             else c._pimpl.SET_ssl_verify_using_ca_bundle cbp) with
      | .error e => .error e
      | .ok impl1 =>
        match impl1.SET_url url with
        | .error e => .error e
        | .ok impl2 => .ok ({ c with _pimpl := impl2, _proto := Protocol.https }, true)
    else
      (c._pimpl.SET_url url).map fun impl2 => ({ c with _pimpl := impl2 }, false)
  else if strStarts "http://" url then
    (c._pimpl.SET_url url).map fun impl2 =>
      ({ c with _pimpl := impl2, _proto := Protocol.http }, false)
  else
    .error (.usage ("invalid protocol in url: " ++ url))

/-- The `HTTPConnection::set_method` (declared in curl_connect.h): applies
`_set_method` and records the method. -/
def HTTPConn.set_method (c : HTTPConn) (meth : HttpMethod) : Except Err HTTPConn :=
  (c._pimpl._set_method meth).map fun impl => { c with _pimpl := impl, _meth := meth }

/-- The `CurlConnection::add_headers` via the impl (curl_connect.cpp:521-523). -/
def HTTPConn.add_headers (c : HTTPConn) (hs : List (String × String)) :
    Except Err HTTPConn :=
  (c._pimpl.ADD_headers hs).map fun impl => { c with _pimpl := impl }

/-- The `CurlConnection::reset_headers` via the impl (curl_connect.cpp:529-531). -/
def HTTPConn.reset_headers (c : HTTPConn) : HTTPConn :=
  { c with _pimpl := c._pimpl.RESET_headers }

/-- The `pairs_to_fields_str` lifted to `String` pairs, as used by
`SET_fields(const vector<pair<string,string>>&)` (curl_connect.cpp:370-372). -/
def fieldsString (fields : List (String × String)) : String :=
  String.mk (pairs_to_fields_str (fields.map fun p => (p.1.toList, p.2.toList)))

/-- The `CurlConnection::set_fields(vector)` via the impl
(curl_connect.cpp:537-539, 370-372). -/
def HTTPConn.set_fields (c : HTTPConn) (fields : List (String × String)) :
    Except Err HTTPConn :=
  (c._pimpl.SET_fields (fieldsString fields)).map fun impl => { c with _pimpl := impl }

/-- The `CurlConnection::set_timeout` via the impl (curl_connect.cpp:513-515). -/
def HTTPConn.set_timeout (c : HTTPConn) (t : Int) : Except Err HTTPConn :=
  (c._pimpl.SET_timeout t).map fun impl => { c with _pimpl := impl }

/-- Fresh `CurlConnection()` impl state (curl_connect.cpp:92-101): open
handle, `CURLOPT_NOSIGNAL = 1`; the error-buffer plumbing is elided. -/
def implFresh : CurlImpl :=
  { _header := [], _handle := true,
    _options := fun x => if x = COpt.NOSIGNAL then some "1" else none }

/-- The `HTTPConnection::DEFAULT_ENCODING` (curl_connect.cpp:552). -/
def DEFAULT_ENCODING : String := "gzip"

/-- The `HTTPConnection::HTTPConnection(meth)` (curl_connect.cpp:589-597). -/
def HTTPConn.construct (meth : HttpMethod) : Except Err HTTPConn := do
  let impl ← implFresh._set_method meth
  let impl ← impl.SET_encoding DEFAULT_ENCODING
  let impl ← impl.SET_keepalive true
  .ok { _pimpl := impl, _proto := Protocol.none, _meth := meth }

/-- The `HTTPConnection::HTTPConnection(url, meth)` (curl_connect.cpp:577-587):
the `(meth)` construction steps followed by `set_url(url)`. -/
def HTTPConn.constructUrl (cbp url : String) (meth : HttpMethod) :
    Except Err HTTPConn := do
  let c ← HTTPConn.construct meth
  let p ← c.set_url cbp url
  .ok p.1

/-- Apply `HTTPConnection::set_url` repeatedly, collecting for each call
whether TLS verification was established during it. -/
def setUrlTrace (c : HTTPConn) (cbp : String) :
    List String → Except Err (HTTPConn × List Bool)
  | [] => .ok (c, [])
  | url :: rest => do
    let p ← c.set_url cbp url
    let q ← setUrlTrace p.1 cbp rest
    .ok (q.1, p.2 :: q.2)

theorem set_option_ok (c : CurlImpl) (o : COpt) (v : String) (h : c._handle = true) :
    c.set_option o v =
      .ok { c with _options := fun x => if x = o then some v else c._options x } := by
  simp [CurlImpl.set_option, h]

instance {ε α : Type} [DecidableEq ε] [DecidableEq α] : DecidableEq (Except ε α)
  | .ok a, .ok b =>
    if h : a = b then .isTrue (by rw [h]) else .isFalse (by simp [h])
  | .ok _, .error _ => .isFalse (by simp)
  | .error _, .ok _ => .isFalse (by simp)
  | .error e, .error f =>
    if h : e = f then .isTrue (by rw [h]) else .isFalse (by simp [h])

/-- C3 counterexample: on a fresh `HTTPConnection`, the URL sequence
`https://a`, `http://b`, `https://c` establishes TLS verification twice
(on the first and the third call), because the code re-establishes it on
every transition into `https` (`_proto != Protocol::https`,
curl_connect.cpp:604), not only on the first one; the claim ("not
re-established on later URL changes") allows exactly one establishment. -/
theorem c3_counterexample_tls_reestablished :
    (HTTPConn.construct HttpMethod.http_get).map
        (fun c => (setUrlTrace c "" ["https://a", "http://b", "https://c"]).map
          (fun q => q.2))
      = .ok (.ok [true, false, true])
    ∧ [true, false, true].count true ≠ 1 := ⟨by decide, by decide⟩

/-- C3 (amended): TLS verification is established exactly on those
`set_url` calls whose URL scheme is `https` while the instance's protocol
state is not currently `https` — i.e. on every transition into `https`,
including re-transitions after an intervening `http` URL; a successful
`https` call leaves the protocol state at `https`, so two consecutive
`set_url` calls with the same `https` scheme trigger the setup exactly
once; the establishment sets `CURLOPT_SSL_VERIFYPEER = 1` and uses the
CA-bundle variant (`CURLOPT_CAINFO`) exactly when the process-wide
certificate bundle path is non-empty. -/
theorem c3_amended_tls_on_https_transition (c : HTTPConn) (cbp url : String)
    (h : c._pimpl._handle = true) :
    ((c.set_url cbp url).map (fun p => p.2) = .ok true
        ↔ (strStarts "https://" url = true ∧ c._proto ≠ Protocol.https))
    ∧ (∀ p, c.set_url cbp url = .ok p → strStarts "https://" url = true →
        p.1._proto = Protocol.https)
    ∧ (∀ p, c.set_url cbp url = .ok p → p.2 = true →
        p.1._pimpl._options COpt.SSL_VERIFYPEER = some "1"
        ∧ p.1._pimpl._options COpt.CAINFO
            = (if cbp = "" then c._pimpl._options COpt.CAINFO else some cbp)) := by
  by_cases h1 : strStarts "https://" url
  · by_cases h2 : c._proto = Protocol.https
    · simp [HTTPConn.set_url, h1, h2, CurlImpl.SET_url, CurlImpl.set_option, h,
        Except.map, Bind.bind, Except.bind]
    · by_cases hc : cbp = ""
      · simp [HTTPConn.set_url, h1, h2, hc, CurlImpl.SET_url,
          CurlImpl.SET_ssl_verify, CurlImpl.set_option, h, Except.map,
          Bind.bind, Except.bind]
      · simp [HTTPConn.set_url, h1, h2, hc, CurlImpl.SET_url,
          CurlImpl.SET_ssl_verify, CurlImpl.SET_ssl_verify_using_ca_bundle,
          CurlImpl.set_option, h, Except.map, Bind.bind, Except.bind]
  · by_cases h3 : strStarts "http://" url
    · simp [HTTPConn.set_url, h1, h3, CurlImpl.SET_url, CurlImpl.set_option, h,
        Except.map, Bind.bind, Except.bind]
    · simp [HTTPConn.set_url, h1, h3, Except.map]

/-- Witness for C3 (amended): a fresh connection (protocol state `none`,
open handle) establishes TLS on `https://a` with the platform trust store. -/
theorem c3_amended_witness :
    ((HTTPConn.mk implFresh Protocol.none HttpMethod.http_get).set_url
        "" "https://a").map (fun p => p.2) = .ok true :=
  (c3_amended_tls_on_https_transition
      (HTTPConn.mk implFresh Protocol.none HttpMethod.http_get) "" "https://a"
      (by decide)).1.mpr ⟨by decide, by decide⟩

/- ----------------------------------------------------------------------
`SharedHTTPConnection` front-end state and its local operations.
---------------------------------------------------------------------- -/

/-- The anchored regex `http[s]?\://` of `SharedHTTPConnection::set_url`
(curl_connect.cpp:778): `regex_search` with `match_continuous` succeeds iff
the match starts at the first character, i.e. iff the string begins with
`http://` or `https://` (case-sensitive; `\:` is just `:`). -/
def protoRxMatch : List Char → Bool
  | 'h' :: 't' :: 't' :: 'p' :: 's' :: ':' :: '/' :: '/' :: _ => true
  | 'h' :: 't' :: 't' :: 'p' :: ':' :: '/' :: '/' :: _ => true
  | _ => false

/-- The `SharedHTTPConnection` front-end value: pending request parameters plus
open flag and bound context id (constructor curl_connect.cpp:623-659). -/
structure SharedConn where
  _is_open : Bool
  _url : String
  _meth : HttpMethod
  _headers : List (String × String)
  _fields : List (String × String)
  _timeout : Int
  _id : Int
deriving DecidableEq

/-- The `SharedHTTPConnection::set_url` (curl_connect.cpp:773-784): anchored
regex check, then store the URL into the front-end's own pending `_url`.
The shared connection and registry are not touched: the function takes no
registry state at all, mirroring the fact that the C++ body reads no static
state. -/
def SharedConn.set_url (c : SharedConn) (url : String) : Except Err SharedConn :=
  if protoRxMatch url.toList then .ok { c with _url := url }
  else .error (.usage ("invalid protocol in url: " ++ url))

theorem protoRxMatch_iff (l : List Char) :
    protoRxMatch l = true ↔
      ("http://".toList <+: l ∨ "https://".toList <+: l) := by
  have h7 : "http://".toList = ['h', 't', 't', 'p', ':', '/', '/'] := rfl
  have h8 : "https://".toList = ['h', 't', 't', 'p', 's', ':', '/', '/'] := rfl
  constructor
  · intro hm
    unfold protoRxMatch at hm
    split at hm
    · rename_i rest
      right
      exact ⟨rest, by rw [h8]; rfl⟩
    · rename_i rest
      left
      exact ⟨rest, by rw [h7]; rfl⟩
    · exact absurd hm (by simp)
  · rintro (⟨t, ht⟩ | ⟨t, ht⟩)
    · rw [h7] at ht
      rw [← ht]
      rfl
    · rw [h8] at ht
      rw [← ht]
      rfl

/-- C5: `SharedHTTPConnection::set_url` throws the invalid-URL
`CurlException` exactly when the URL does not begin with the case-sensitive
prefix `http://` or `https://`; on a valid prefix it only stores the URL
into the front-end's own pending state (all other fields unchanged; the
shared connection/registry is not an input at all); `ftp://host` fails for
both the shared front-end and the plain `HTTPConnection`. -/
theorem c5_set_url_validation (c : SharedConn) (hc : HTTPConn) (cbp url : String) :
    (protoRxMatch url.toList
        = (strStarts "http://" url || strStarts "https://" url))
    ∧ ((strStarts "http://" url || strStarts "https://" url) = false →
        c.set_url url = .error (.usage ("invalid protocol in url: " ++ url)))
    ∧ ((strStarts "http://" url || strStarts "https://" url) = true →
        c.set_url url = .ok { c with _url := url })
    ∧ SharedConn.set_url c "ftp://host"
        = .error (.usage "invalid protocol in url: ftp://host")
    ∧ HTTPConn.set_url hc cbp "ftp://host"
        = .error (.usage "invalid protocol in url: ftp://host") := by
  have hiff : protoRxMatch url.toList
      = (strStarts "http://" url || strStarts "https://" url) := by
    cases hm : protoRxMatch url.toList with
    | false =>
      symm
      rw [Bool.or_eq_false_iff]
      refine ⟨?_, ?_⟩
      · cases hs : strStarts "http://" url with
        | false => rfl
        | true =>
          simp only [strStarts] at hs
          have hp : "http://".toList <+: url.toList :=
            List.isPrefixOf_iff_prefix.mp hs
          rw [(protoRxMatch_iff url.toList).mpr (Or.inl hp)] at hm
          exact absurd hm (by simp)
      · cases hs : strStarts "https://" url with
        | false => rfl
        | true =>
          simp only [strStarts] at hs
          have hp : "https://".toList <+: url.toList :=
            List.isPrefixOf_iff_prefix.mp hs
          rw [(protoRxMatch_iff url.toList).mpr (Or.inr hp)] at hm
          exact absurd hm (by simp)
    | true =>
      symm
      rw [Bool.or_eq_true]
      rcases (protoRxMatch_iff url.toList).mp hm with hp | hp
      · refine Or.inl ?_
        simp only [strStarts]
        exact List.isPrefixOf_iff_prefix.mpr hp
      · refine Or.inr ?_
        simp only [strStarts]
        exact List.isPrefixOf_iff_prefix.mpr hp
  have hftp : SharedConn.set_url c "ftp://host"
      = .error (.usage "invalid protocol in url: ftp://host") := by
    have happ : ("invalid protocol in url: " ++ "ftp://host" : String)
        = "invalid protocol in url: ftp://host" := by decide
    simp [SharedConn.set_url, happ]
    decide
  refine ⟨hiff, ?_, ?_, hftp, ?_⟩
  · intro hb
    rw [SharedConn.set_url, hiff, hb]
    simp
  · intro hb
    rw [SharedConn.set_url, hiff, hb]
    simp
  · have hf1 : strStarts "https://" "ftp://host" = false := by decide
    have hf2 : strStarts "http://" "ftp://host" = false := by decide
    simp [HTTPConn.set_url, hf1, hf2]

/-- Witness for C5: a valid `http://` URL is stored as-is on a concrete
closed front-end; the registry is untouched by construction. -/
theorem c5_witness :
    SharedConn.set_url (SharedConn.mk false "" HttpMethod.http_get [] [] 0 1)
        "http://x"
      = .ok (SharedConn.mk false "http://x" HttpMethod.http_get [] [] 0 1) :=
  (c5_set_url_validation (SharedConn.mk false "" HttpMethod.http_get [] [] 0 1)
      (HTTPConn.mk implFresh Protocol.none HttpMethod.http_get) "" "http://x").2.2.1
    (by decide)

/- ----------------------------------------------------------------------
The shared-context registry (curl_connect.cpp:620-816).
---------------------------------------------------------------------- -/

/-- A registry entry, `SharedHTTPConnection::Context` (declared in
curl_connect.h): the owned `HTTPConnection` and the reference count `nref`
(the per-entry mutex is not representable in a sequential embedding).
Modelled from the spec for the part outside src: `Context(conn)` starts at
`nref = 0` — the constructor body (curl_connect.cpp:656) increments it
unconditionally afterwards, and spec §4.1 requires a fresh entry to end at
`nref = 1`. -/
structure Ctx where
  conn : HTTPConn
  nref : Int

/-- The process-wide map `SharedHTTPConnection::contexts`
(curl_connect.cpp:620), as a partial map from context id to entry. -/
def Registry : Type := Int → Option Ctx

/-- Map update/erase, the effect of `contexts[id] = …` / `contexts.erase`. -/
def regSet (contexts : Registry) (id : Int) (v : Option Ctx) : Registry :=
  fun i => if i = id then v else contexts i

/-- The empty registry (process start). -/
def regEmpty : Registry := fun _ => Option.none

/-- The `SharedHTTPConnection::incr_ref` (curl_connect.cpp:800-808): the entry
must exist (`assert(citer != contexts.cend())`); `none` models the failed
assertion (a fatal ContractViolation, not an exception). -/
def incr_ref (contexts : Registry) (id : Int) : Option Registry :=
  match contexts id with
  | Option.none => Option.none
  | some ctx => some (regSet contexts id (some { ctx with nref := ctx.nref + 1 }))

/-- The `SharedHTTPConnection::decr_ref` (curl_connect.cpp:787-798): the entry
must exist; `--nref` must not go below zero (`assert(nref >= 0)`); when the
count reaches zero the entry is erased in the same step.  `none` models a
failed assertion (fatal ContractViolation). -/
def decr_ref (contexts : Registry) (id : Int) : Option Registry :=
  match contexts id with
  | Option.none => Option.none
  | some ctx =>
    if ctx.nref - 1 < 0 then Option.none
    else if ctx.nref - 1 = 0 then some (regSet contexts id Option.none)
    else some (regSet contexts id (some { ctx with nref := ctx.nref - 1 }))

/-- The `SharedHTTPConnection::nconnections` (curl_connect.cpp:810-816):
current `nref`, or 0 when the id is absent. -/
def nconnections (contexts : Registry) (id : Int) : Int :=
  match contexts id with
  | Option.none => 0
  | some ctx => ctx.nref

/-- The `SharedHTTPConnection::SharedHTTPConnection(url, meth, context_id)`
(curl_connect.cpp:623-659).  Returns the updated registry and the new
front-end, or `none` for the front-end when construction failed: either the
`HTTPConnection` constructor / `set_url` threw (C++17 sequencing: the
right-hand side of `contexts[id] = Context(new HTTPConnection(…))` runs
before the insertion, so a throw leaves the map unchanged; in the
existing-entry branch `set_method` has already mutated the shared
connection when `set_url` throws), or `assert(nref > 0)` failed.  In every
failure case nothing was incremented and the front-end never became open. -/
def mkShared (contexts : Registry) (cbp url : String) (meth : HttpMethod)
    (context_id : Int) : Registry × Option SharedConn :=
  match contexts context_id with
  | Option.none =>
    match (if url = "" then HTTPConn.construct meth
           else HTTPConn.constructUrl cbp url meth) with
    | .error _ => (contexts, Option.none)
    | .ok conn =>
      let contexts1 := regSet contexts context_id (some { conn := conn, nref := 0 })
      match incr_ref contexts1 context_id with
      | Option.none => (contexts1, Option.none)
      | some contexts2 =>
        (contexts2, some { _is_open := true, _url := url, _meth := meth,
                           _headers := [], _fields := [], _timeout := 0,
                           _id := context_id })
  | some ctx =>
    if ctx.nref ≤ 0 then (contexts, Option.none)
    else
      match ctx.conn.set_method meth with
      | .error _ => (contexts, Option.none)
      | .ok conn1 =>
        let contexts1 := regSet contexts context_id
          (some { conn := conn1, nref := ctx.nref })
        match (if url ≠ "" then (conn1.set_url cbp url).map (fun p => p.1)
               else .ok conn1) with
        | .error _ => (contexts1, Option.none)
        | .ok conn2 =>
          let contexts2 := regSet contexts context_id
            (some { conn := conn2, nref := ctx.nref })
          match incr_ref contexts2 context_id with
          | Option.none => (contexts2, Option.none)
          | some contexts3 =>
            (contexts3, some { _is_open := true, _url := url, _meth := meth,
                               _headers := [], _fields := [], _timeout := 0,
                               _id := context_id })

/-- Copy constructor (curl_connect.cpp:662-676): value-copies all fields;
if the source is open, increments the refcount of its id. -/
def SharedConn.copyCtor (connection : SharedConn) (contexts : Registry) :
    Registry × Option SharedConn :=
  if connection._is_open then
    match incr_ref contexts connection._id with
    | Option.none => (contexts, Option.none)
    | some contexts2 => (contexts2, some connection)
  else (contexts, some connection)

/-- Copy assignment (curl_connect.cpp:679-704): a no-op when all seven
fields compare equal (`operator==`, curl_connect.cpp:706-717); otherwise
adjusts refcounts — open-flag mismatch: bump the source id (source open) or
drop the target id (source closed); both open with different ids: drop the
target id then bump the source id — and then value-copies all fields.
A `none` front-end result models a failed `assert` inside
`incr_ref`/`decr_ref` (fatal; unreachable from a consistent registry). -/
def SharedConn.assign (tgt src : SharedConn) (contexts : Registry) :
    Registry × Option SharedConn :=
  if tgt = src then (contexts, some tgt)
  else
    let step : Option Registry :=
      if tgt._is_open ≠ src._is_open then
        if src._is_open then incr_ref contexts src._id
        else decr_ref contexts tgt._id
      else if tgt._id ≠ src._id ∧ tgt._is_open then
        match decr_ref contexts tgt._id with
        | Option.none => Option.none
        | some contexts2 => incr_ref contexts2 src._id
      else some contexts
    match step with
    | Option.none => (contexts, Option.none)
    | some contexts2 => (contexts2, some src)

/-- The `SharedHTTPConnection::close` (curl_connect.cpp:761-771): no-op when
already closed (`is_closed()` is `!_is_open`, declared in the header);
otherwise decrement this id's refcount and mark the front-end closed. -/
def SharedConn.close (c : SharedConn) (contexts : Registry) :
    Registry × Option SharedConn :=
  if c._is_open = false then (contexts, some c)
  else
    match decr_ref contexts c._id with
    | Option.none => (contexts, Option.none)
    | some contexts2 => (contexts2, some { c with _is_open := false })

/-- C6: calling the registry release primitive `decr_ref` for an id with no
entry, or decrementing a stored reference count at or below zero, fails an
`assert` — a fatal ContractViolation (modelled as `Option.none`), never a
silent no-op and never a recoverable error value; in every other case the
operation succeeds. -/
theorem c6_decr_ref_contract_violation (contexts : Registry) (id : Int) :
    decr_ref contexts id = Option.none
      ↔ (contexts id = Option.none
          ∨ ∃ ctx, contexts id = some ctx ∧ ctx.nref ≤ 0) := by
  unfold decr_ref
  cases h : contexts id with
  | none => simp
  | some ctx =>
    by_cases hn : ctx.nref - 1 < 0
    · simp only [if_pos hn]
      constructor
      · intro _
        exact Or.inr ⟨ctx, rfl, by omega⟩
      · intro _
        trivial
    · by_cases hz : ctx.nref - 1 = 0
      · simp only [if_neg hn, if_pos hz]
        constructor
        · intro hcontra
          exact absurd hcontra (by simp)
        · rintro (hcontra | ⟨ctx2, hc2, hle⟩)
          · exact absurd hcontra (by simp)
          · injection hc2 with hc2
            subst hc2
            omega
      · simp only [if_neg hn, if_neg hz]
        constructor
        · intro hcontra
          exact absurd hcontra (by simp)
        · rintro (hcontra | ⟨ctx2, hc2, hle⟩)
          · exact absurd hcontra (by simp)
          · injection hc2 with hc2
            subst hc2
            omega

/-- Witness for C6: releasing id 5 on the empty registry is the fatal case. -/
theorem c6_witness : decr_ref regEmpty 5 = Option.none :=
  (c6_decr_ref_contract_violation regEmpty 5).mpr (Or.inl rfl)

/-- C10: copy assignment between two unequal front-end values — target
closed and source open: the source id's count is bumped by one; target open
and source closed: the target id's count is dropped by one, the entry being
erased exactly when it reaches zero; both open with the same id: no
refcount change; in each case the target adopts all of the source's fields
(the result front-end is the source value).  Assignment between equal
values changes nothing, including no refcount change. -/
theorem c10_assign_refcount_cases (tgt src : SharedConn) (contexts : Registry) :
    (SharedConn.assign tgt tgt contexts = (contexts, some tgt))
    ∧ (tgt ≠ src → tgt._is_open = false → src._is_open = true →
        ∀ ctx, contexts src._id = some ctx →
          SharedConn.assign tgt src contexts
            = (regSet contexts src._id (some { ctx with nref := ctx.nref + 1 }),
               some src))
    ∧ (tgt ≠ src → tgt._is_open = true → src._is_open = false →
        ∀ ctx, contexts tgt._id = some ctx → 1 ≤ ctx.nref →
          (SharedConn.assign tgt src contexts).2 = some src
          ∧ nconnections (SharedConn.assign tgt src contexts).1 tgt._id
              = ctx.nref - 1
          ∧ (((SharedConn.assign tgt src contexts).1 tgt._id).isSome
              ↔ ctx.nref ≠ 1)
          ∧ (∀ j, j ≠ tgt._id →
              (SharedConn.assign tgt src contexts).1 j = contexts j))
    ∧ (tgt ≠ src → tgt._is_open = true → src._is_open = true →
        tgt._id = src._id →
        SharedConn.assign tgt src contexts = (contexts, some src)) := by
  refine ⟨by simp [SharedConn.assign], ?_, ?_, ?_⟩
  · intro hne hto hso ctx hctx
    simp [SharedConn.assign, hne, hto, hso, incr_ref, hctx]
  · intro hne hto hso ctx hctx hpos
    by_cases hz : ctx.nref = 1
    · have hd : decr_ref contexts tgt._id = some (regSet contexts tgt._id Option.none) := by
        simp [decr_ref, hctx, hz]
      simp [SharedConn.assign, hne, hto, hso, hd, nconnections, regSet, hz]
      intro j hj1 hj2
      exact absurd hj2 hj1
    · have hd : decr_ref contexts tgt._id
          = some (regSet contexts tgt._id (some { ctx with nref := ctx.nref - 1 })) := by
        have h1 : ¬(ctx.nref - 1 < 0) := by omega
        have h2 : ¬(ctx.nref - 1 = 0) := by omega
        simp [decr_ref, hctx, h1, h2]
      simp [SharedConn.assign, hne, hto, hso, hd, nconnections, regSet, hz]
      intro j hj1 hj2
      exact absurd hj2 hj1
  · intro hne hto hso hid
    simp [SharedConn.assign, hne, hto, hso, hid]

/-- Fixture: a fresh shared `HTTPConnection` for registry entries. -/
def c10Conn : HTTPConn :=
  HTTPConn.mk implFresh Protocol.none HttpMethod.http_get

/-- Fixture: a registry entry for id 3 with one reference. -/
def c10Ctx : Ctx := Ctx.mk c10Conn 1

/-- Fixture: a registry holding only id 3. -/
def c10Reg : Registry := regSet regEmpty 3 (some c10Ctx)

/-- Fixture: a closed front-end bound to id 1. -/
def c10Tgt : SharedConn :=
  SharedConn.mk false "http://t" HttpMethod.http_get [] [] 0 1

/-- Fixture: an open front-end bound to id 3. -/
def c10Src : SharedConn :=
  SharedConn.mk true "http://s" HttpMethod.http_post [] [] 0 3

/-- Witness for C10: assigning an open source (id 3) to a closed target
bumps id 3 from one reference to two and copies the source's fields. -/
theorem c10_witness :
    SharedConn.assign c10Tgt c10Src c10Reg
      = (regSet c10Reg c10Src._id (some { c10Ctx with nref := c10Ctx.nref + 1 }),
         some c10Src) :=
  (c10_assign_refcount_cases c10Tgt c10Src c10Reg).2.1
    (by decide) rfl rfl c10Ctx rfl

/- ----------------------------------------------------------------------
`SharedHTTPConnection::execute` (curl_connect.cpp:719-746).
---------------------------------------------------------------------- -/

/-- Configuration calls issued on the shared `LogicalConnection` by one
`SharedHTTPConnection::execute`, in program order. -/
inductive Ev where
  | setUrl (url : String)
  | resetHeaders
  | addHeaders (hs : List (String × String))
  | setMethod (m : HttpMethod)
  | setFields (fs : List (String × String))
  | setTimeout (t : Int)
  | execConn (rhd : Bool)
deriving DecidableEq

/-- Result of one `SharedHTTPConnection::execute`: the front-end and
shared-connection states after the call, the successfully issued calls, and
the outcome — the result tuple of the underlying `execute` (abstracted as
`ρ`, covering status/body/headers/timestamp) or the propagated error. -/
structure ExecOut (ρ : Type) where
  fe : SharedConn
  conn : HTTPConn
  calls : List Ev
  out : Except Err ρ

/-- The `SharedHTTPConnection::execute` (curl_connect.cpp:719-746), line by
line.  `conn` is the shared connection resolved from the registry entry for
the bound id (`_get_context`, whose `assert` that the entry exists is a
registry-level concern); `netRes` is the outcome of the one network
exchange performed by the underlying `CurlConnectionImpl_::execute`
(whose callback plumbing is elided and which does not alter the stored
request options); the per-entry mutex acquisition is not representable in a
sequential embedding.  Exceptions propagate without rollback: the states
reached so far are returned unchanged, and only the success of the
`set_fields` step is followed by `_fields.clear()` (curl_connect.cpp:741). -/
def SharedConn.executeRun {ρ : Type} (fe : SharedConn) (conn : HTTPConn)
    (cbp : String) (rhd : Bool) (netRes : Except Err ρ) : ExecOut ρ :=
  if fe._is_open = false then
    ExecOut.mk fe conn [] (.error (.usage "connection has been closed"))
  else
    match HTTPConn.set_url conn cbp fe._url with
    | .error e => ExecOut.mk fe conn [] (.error e)
    | .ok p =>
      let conn2 := p.1.reset_headers
      match (if fe._headers = [] then Except.ok conn2
             else conn2.add_headers fe._headers) with
      | .error e =>
        ExecOut.mk fe conn2 [Ev.setUrl fe._url, Ev.resetHeaders] (.error e)
      | .ok conn3 =>
        match conn3.set_method fe._meth with
        | .error e =>
          ExecOut.mk fe conn3
            ([Ev.setUrl fe._url, Ev.resetHeaders]
              ++ (if fe._headers = [] then [] else [Ev.addHeaders fe._headers]))
            (.error e)
        | .ok conn4 =>
          match (if fe._meth ≠ HttpMethod.http_get ∧ fe._fields ≠ [] then
                   conn4.set_fields fe._fields
                 else Except.ok conn4) with
          | .error e =>
            ExecOut.mk fe conn4
              ([Ev.setUrl fe._url, Ev.resetHeaders]
                ++ (if fe._headers = [] then [] else [Ev.addHeaders fe._headers])
                ++ [Ev.setMethod fe._meth])
              (.error e)
          | .ok conn5 =>
            let fe1 := { fe with _fields := [] }
            match conn5.set_timeout fe._timeout with
            | .error e =>
              ExecOut.mk fe1 conn5
                ([Ev.setUrl fe._url, Ev.resetHeaders]
                  ++ (if fe._headers = [] then [] else [Ev.addHeaders fe._headers])
                  ++ [Ev.setMethod fe._meth]
                  ++ (if fe._meth ≠ HttpMethod.http_get ∧ fe._fields ≠ [] then
                        [Ev.setFields fe._fields] else []))
                (.error e)
            | .ok conn6 =>
              if conn6._pimpl._handle = false then
                ExecOut.mk fe1 conn6
                  ([Ev.setUrl fe._url, Ev.resetHeaders]
                    ++ (if fe._headers = [] then [] else [Ev.addHeaders fe._headers])
                    ++ [Ev.setMethod fe._meth]
                    ++ (if fe._meth ≠ HttpMethod.http_get ∧ fe._fields ≠ [] then
                          [Ev.setFields fe._fields] else [])
                    ++ [Ev.setTimeout fe._timeout])
                  (.error (.usage "connection/handle has been closed"))
              else
                ExecOut.mk fe1 conn6
                  ([Ev.setUrl fe._url, Ev.resetHeaders]
                    ++ (if fe._headers = [] then [] else [Ev.addHeaders fe._headers])
                    ++ [Ev.setMethod fe._meth]
                    ++ (if fe._meth ≠ HttpMethod.http_get ∧ fe._fields ≠ [] then
                          [Ev.setFields fe._fields] else [])
                    ++ [Ev.setTimeout fe._timeout, Ev.execConn rhd])
                  netRes

/-- The configuration pushes of `execute` (curl_connect.cpp:732-743) alone,
as the resulting shared-connection state. -/
def pushAll (fe : SharedConn) (conn : HTTPConn) (cbp : String) :
    Except Err HTTPConn :=
  match HTTPConn.set_url conn cbp fe._url with
  | .error e => .error e
  | .ok p =>
    let conn2 := p.1.reset_headers
    match (if fe._headers = [] then Except.ok conn2
           else conn2.add_headers fe._headers) with
    | .error e => .error e
    | .ok conn3 =>
      match conn3.set_method fe._meth with
      | .error e => .error e
      | .ok conn4 =>
        match (if fe._meth ≠ HttpMethod.http_get ∧ fe._fields ≠ [] then
                 conn4.set_fields fe._fields
               else Except.ok conn4) with
        | .error e => .error e
        | .ok conn5 => conn5.set_timeout fe._timeout

/-- The call sequence of a fully successful `execute`. -/
def callsOf (fe : SharedConn) (rhd : Bool) : List Ev :=
  [Ev.setUrl fe._url, Ev.resetHeaders]
    ++ (if fe._headers = [] then [] else [Ev.addHeaders fe._headers])
    ++ [Ev.setMethod fe._meth]
    ++ (if fe._meth ≠ HttpMethod.http_get ∧ fe._fields ≠ [] then
          [Ev.setFields fe._fields] else [])
    ++ [Ev.setTimeout fe._timeout, Ev.execConn rhd]

theorem set_url_char (c : HTTPConn) (cbp url : String)
    (h : c._pimpl._handle = true)
    (hu : (strStarts "http://" url || strStarts "https://" url) = true) :
    ∃ p, c.set_url cbp url = .ok p
      ∧ p.1._pimpl._handle = true
      ∧ p.1._pimpl._options COpt.COPYPOSTFIELDS
          = c._pimpl._options COpt.COPYPOSTFIELDS := by
  by_cases h1 : strStarts "https://" url
  · by_cases h2 : c._proto = Protocol.https
    · simp [HTTPConn.set_url, h1, h2, CurlImpl.SET_url, CurlImpl.set_option, h,
        Except.map, Bind.bind, Except.bind]
    · by_cases hc : cbp = ""
      · simp [HTTPConn.set_url, h1, h2, hc, CurlImpl.SET_url,
          CurlImpl.SET_ssl_verify, CurlImpl.set_option, h, Except.map,
          Bind.bind, Except.bind]
      · simp [HTTPConn.set_url, h1, h2, hc, CurlImpl.SET_url,
          CurlImpl.SET_ssl_verify, CurlImpl.SET_ssl_verify_using_ca_bundle,
          CurlImpl.set_option, h, Except.map, Bind.bind, Except.bind]
  · have h3 : strStarts "http://" url = true := by
      rcases Bool.or_eq_true_iff.mp hu with hx | hx
      · exact hx
      · exact absurd hx h1
    simp [HTTPConn.set_url, h1, h3, CurlImpl.SET_url, CurlImpl.set_option, h,
      Except.map, Bind.bind, Except.bind]

theorem reset_headers_char (c : HTTPConn) :
    (c.reset_headers)._pimpl._handle = c._pimpl._handle
    ∧ (c.reset_headers)._pimpl._options COpt.COPYPOSTFIELDS
        = c._pimpl._options COpt.COPYPOSTFIELDS := by
  simp [HTTPConn.reset_headers, CurlImpl.RESET_headers]

theorem add_headers_char (c : HTTPConn) (hs : List (String × String))
    (h : c._pimpl._handle = true) :
    ∃ c2, c.add_headers hs = .ok c2
      ∧ c2._pimpl._handle = true
      ∧ c2._pimpl._options COpt.COPYPOSTFIELDS
          = c._pimpl._options COpt.COPYPOSTFIELDS := by
  by_cases he : hs = []
  · simp [HTTPConn.add_headers, CurlImpl.ADD_headers, he, h, Except.map]
  · simp [HTTPConn.add_headers, CurlImpl.ADD_headers, he, h,
      CurlImpl.set_option, Except.map]

theorem set_method_char (c : HTTPConn) (meth : HttpMethod)
    (h : c._pimpl._handle = true) :
    ∃ c2, c.set_method meth = .ok c2
      ∧ c2._pimpl._handle = true
      ∧ c2._pimpl._options COpt.COPYPOSTFIELDS
          = c._pimpl._options COpt.COPYPOSTFIELDS := by
  cases meth <;>
    simp [HTTPConn.set_method, CurlImpl._set_method, CurlImpl.set_option, h,
      Except.map]

theorem pairs_to_fields_str_ne_nil (p : List Char × List Char)
    (r : List (List Char × List Char)) : pairs_to_fields_str (p :: r) ≠ [] := by
  have hlen :
      2 ≤ (((p :: r).map (fun f => f.1 ++ '=' :: f.2 ++ ['&'])).flatten).length := by
    rw [List.map_cons, List.flatten_cons, List.length_append]
    have h2 : 2 ≤ (p.1 ++ '=' :: p.2 ++ ['&']).length := by
      rw [List.length_append]
      simp
      omega
    omega
  unfold pairs_to_fields_str
  have hne : ((p :: r).map (fun f => f.1 ++ '=' :: f.2 ++ ['&'])).flatten ≠ [] := by
    intro hcontra
    rw [hcontra] at hlen
    simp at hlen
  simp only [if_neg hne]
  intro hcontra
  have hlc := congrArg List.length hcontra
  rw [List.length_dropLast] at hlc
  simp at hlc

theorem fieldsString_ne_empty (fields : List (String × String))
    (h : fields ≠ []) : fieldsString fields ≠ "" := by
  cases fields with
  | nil => exact absurd rfl h
  | cons p r =>
    intro hcontra
    have hd : pairs_to_fields_str
        ((p :: r).map fun q => (q.1.toList, q.2.toList)) = [] := by
      have hdata := congrArg String.data hcontra
      simpa [fieldsString] using hdata
    rw [List.map_cons] at hd
    exact pairs_to_fields_str_ne_nil _ _ hd

theorem set_fields_char (c : HTTPConn) (fields : List (String × String))
    (h : c._pimpl._handle = true) (hf : fields ≠ []) :
    ∃ c2, c.set_fields fields = .ok c2
      ∧ c2._pimpl._handle = true
      ∧ c2._pimpl._options COpt.COPYPOSTFIELDS = some (fieldsString fields) := by
  have hne := fieldsString_ne_empty fields hf
  simp [HTTPConn.set_fields, CurlImpl.SET_fields, h, hne, CurlImpl.set_option,
    Except.map]

theorem set_timeout_char (c : HTTPConn) (t : Int)
    (h : c._pimpl._handle = true) :
    ∃ c2, c.set_timeout t = .ok c2
      ∧ c2._pimpl._handle = true
      ∧ c2._pimpl._options COpt.COPYPOSTFIELDS
          = c._pimpl._options COpt.COPYPOSTFIELDS := by
  simp [HTTPConn.set_timeout, CurlImpl.SET_timeout, CurlImpl.set_option, h,
    Except.map]

theorem executeRun_char {ρ : Type} (fe : SharedConn) (conn : HTTPConn)
    (cbp : String) (rhd : Bool) (netRes : Except Err ρ)
    (hOpen : fe._is_open = true)
    (hH : conn._pimpl._handle = true)
    (hU : (strStarts "http://" fe._url || strStarts "https://" fe._url) = true) :
    ∃ connF,
      pushAll fe conn cbp = .ok connF
      ∧ fe.executeRun conn cbp rhd netRes
          = ExecOut.mk { fe with _fields := [] } connF (callsOf fe rhd) netRes
      ∧ connF._pimpl._handle = true
      ∧ connF._pimpl._options COpt.COPYPOSTFIELDS
          = (if fe._meth ≠ HttpMethod.http_get ∧ fe._fields ≠ []
             then some (fieldsString fe._fields)
             else conn._pimpl._options COpt.COPYPOSTFIELDS) := by
  obtain ⟨p, h1, hh1, hcp1⟩ := set_url_char conn cbp fe._url hH hU
  obtain ⟨hh2, hcp2⟩ := reset_headers_char p.1
  rw [hh1] at hh2
  have step2 : ∃ c3, (if fe._headers = [] then Except.ok p.1.reset_headers
      else p.1.reset_headers.add_headers fe._headers) = .ok c3
      ∧ c3._pimpl._handle = true
      ∧ c3._pimpl._options COpt.COPYPOSTFIELDS
          = p.1.reset_headers._pimpl._options COpt.COPYPOSTFIELDS := by
    by_cases hh : fe._headers = []
    · exact ⟨p.1.reset_headers, by rw [if_pos hh], hh2, rfl⟩
    · obtain ⟨c3, h3, hh3, hcp3⟩ :=
        add_headers_char p.1.reset_headers fe._headers hh2
      exact ⟨c3, by rw [if_neg hh]; exact h3, hh3, hcp3⟩
  obtain ⟨c3, h3, hh3, hcp3⟩ := step2
  obtain ⟨c4, h4, hh4, hcp4⟩ := set_method_char c3 fe._meth hh3
  have step4 : ∃ c5, (if fe._meth ≠ HttpMethod.http_get ∧ fe._fields ≠ [] then
      c4.set_fields fe._fields else Except.ok c4) = .ok c5
      ∧ c5._pimpl._handle = true
      ∧ c5._pimpl._options COpt.COPYPOSTFIELDS
          = (if fe._meth ≠ HttpMethod.http_get ∧ fe._fields ≠ []
             then some (fieldsString fe._fields)
             else c4._pimpl._options COpt.COPYPOSTFIELDS) := by
    by_cases hcond : fe._meth ≠ HttpMethod.http_get ∧ fe._fields ≠ []
    · obtain ⟨c5, h5, hh5, hcp5⟩ := set_fields_char c4 fe._fields hh4 hcond.2
      exact ⟨c5, by rw [if_pos hcond]; exact h5, hh5,
             by rw [if_pos hcond]; exact hcp5⟩
    · exact ⟨c4, by rw [if_neg hcond], hh4, by rw [if_neg hcond]⟩
  obtain ⟨c5, h5, hh5, hcp5⟩ := step4
  obtain ⟨c6, h6, hh6, hcp6⟩ := set_timeout_char c5 fe._timeout hh5
  refine ⟨c6, ?_, ?_, hh6, ?_⟩
  · unfold pushAll
    rw [h1]
    dsimp only
    rw [h3]
    dsimp only
    rw [h4]
    dsimp only
    rw [h5]
    dsimp only
    exact h6
  · unfold SharedConn.executeRun
    simp only [hOpen, Bool.true_eq_false, if_false]
    rw [h1]
    dsimp only
    rw [h3]
    dsimp only
    rw [h4]
    dsimp only
    rw [h5]
    dsimp only
    rw [h6]
    dsimp only
    rw [if_neg (by simp [hh6])]
    rfl
  · rw [hcp6, hcp5, hcp4, hcp3, hcp2, hcp1]

/-- C4: for an open front-end with a valid pending URL scheme, on a live
shared handle, `execute` issues exactly, in order: push the pending URL;
reset the shared connection's headers and re-add the pending headers only
if the pending header list is non-empty; push the pending method; push the
pending fields as body only when the method is not GET and the fields list
is non-empty; push the pending timeout; then invoke the shared connection's
`execute` and return its result tuple unchanged.  (The per-context lock
held around this sequence is not representable in a sequential embedding.) -/
theorem c4_execute_push_order {ρ : Type} (fe : SharedConn) (conn : HTTPConn)
    (cbp : String) (rhd : Bool) (netRes : Except Err ρ)
    (hOpen : fe._is_open = true)
    (hH : conn._pimpl._handle = true)
    (hU : (strStarts "http://" fe._url || strStarts "https://" fe._url) = true) :
    ∃ connF, pushAll fe conn cbp = .ok connF
      ∧ fe.executeRun conn cbp rhd netRes
          = ExecOut.mk { fe with _fields := [] } connF
              ([Ev.setUrl fe._url, Ev.resetHeaders]
                ++ (if fe._headers = [] then [] else [Ev.addHeaders fe._headers])
                ++ [Ev.setMethod fe._meth]
                ++ (if fe._meth ≠ HttpMethod.http_get ∧ fe._fields ≠ [] then
                      [Ev.setFields fe._fields] else [])
                ++ [Ev.setTimeout fe._timeout, Ev.execConn rhd])
              netRes := by
  obtain ⟨connF, hp, he, _, _⟩ :=
    executeRun_char fe conn cbp rhd netRes hOpen hH hU
  exact ⟨connF, hp, by rw [he]; rfl⟩

/-- Fixture: an open front-end (id 1) with pending POST parameters. -/
def feFix : SharedConn :=
  SharedConn.mk true "http://x" HttpMethod.http_post [("A", "B")] [("a", "1")] 7 1

/-- Fixture: a fresh shared connection with an open handle. -/
def connFix : HTTPConn := HTTPConn.mk implFresh Protocol.none HttpMethod.http_get

/-- Witness for C4: the exact call sequence on concrete pending state. -/
theorem c4_witness :
    (feFix.executeRun connFix "" true (.ok (0 : Int))).calls
        = [Ev.setUrl "http://x", Ev.resetHeaders, Ev.addHeaders [("A", "B")],
           Ev.setMethod HttpMethod.http_post, Ev.setFields [("a", "1")],
           Ev.setTimeout 7, Ev.execConn true]
    ∧ (feFix.executeRun connFix "" true (.ok (0 : Int))).out = .ok 0 := by
  obtain ⟨connF, hp, he⟩ :=
    c4_execute_push_order feFix connFix "" true (.ok (0 : Int)) rfl rfl (by decide)
  rw [he]
  refine ⟨?_, rfl⟩
  dsimp only
  decide

/-- C2 counterexample: pending fields `[("a","1")]` with method POST are
consumed by the first `execute` (the pending list empties), and the second
`execute` pushes no `set_fields` call — but the shared connection's
`CURLOPT_COPYPOSTFIELDS` option, set to `a=1` by the first `execute`, is
never cleared (neither `execute` nor `reset_headers` touches it,
curl_connect.cpp:719-746, 347-353), so the second request goes out with the
body `a=1` from the first call rather than an empty body as the claim
states. -/
theorem c2_counterexample_body_persists :
    (feFix.executeRun connFix "" false (.ok (0 : Int))).fe._fields = []
    ∧ ((feFix.executeRun connFix "" false (.ok (0 : Int))).fe.executeRun
          (feFix.executeRun connFix "" false (.ok (0 : Int))).conn ""
          false (.ok (0 : Int))).calls
        = [Ev.setUrl "http://x", Ev.resetHeaders, Ev.addHeaders [("A", "B")],
           Ev.setMethod HttpMethod.http_post, Ev.setTimeout 7,
           Ev.execConn false]
    ∧ ((feFix.executeRun connFix "" false (.ok (0 : Int))).fe.executeRun
          (feFix.executeRun connFix "" false (.ok (0 : Int))).conn ""
          false (.ok (0 : Int))).conn._pimpl._options COpt.COPYPOSTFIELDS
        = some "a=1"
    ∧ (some "a=1" : Option String) ≠ some "" :=
  ⟨by decide, by decide, by decide, by decide⟩

/-- C2 (amended): for an open front-end whose pending method is not GET and
whose pending fields list is non-empty, one `execute` consumes the fields
(the pending list is empty afterwards) while pending URL, headers, method
and timeout persist, and it pushes the fields as the request body; a second
`execute` without re-setting fields pushes no body call at all — however
the shared connection's body option (`CURLOPT_COPYPOSTFIELDS`) is not
reset, so the second request is sent with the first execute's body rather
than an empty one. -/
theorem c2_amended_fields_consumed_body_persists {ρ : Type}
    (fe : SharedConn) (conn : HTTPConn) (cbp : String) (rhd : Bool)
    (netRes netRes2 : Except Err ρ)
    (hOpen : fe._is_open = true)
    (hH : conn._pimpl._handle = true)
    (hU : (strStarts "http://" fe._url || strStarts "https://" fe._url) = true)
    (hM : fe._meth ≠ HttpMethod.http_get)
    (hF : fe._fields ≠ []) :
    (fe.executeRun conn cbp rhd netRes).fe = { fe with _fields := [] }
    ∧ Ev.setFields fe._fields ∈ (fe.executeRun conn cbp rhd netRes).calls
    ∧ (fe.executeRun conn cbp rhd netRes).conn._pimpl._options
        COpt.COPYPOSTFIELDS = some (fieldsString fe._fields)
    ∧ (∀ fs, Ev.setFields fs ∉
        ((fe.executeRun conn cbp rhd netRes).fe.executeRun
            (fe.executeRun conn cbp rhd netRes).conn cbp rhd netRes2).calls)
    ∧ ((fe.executeRun conn cbp rhd netRes).fe.executeRun
          (fe.executeRun conn cbp rhd netRes).conn cbp rhd netRes2).conn._pimpl._options
        COpt.COPYPOSTFIELDS = some (fieldsString fe._fields) := by
  obtain ⟨connF, hp, he, hhF, hcp⟩ :=
    executeRun_char fe conn cbp rhd netRes hOpen hH hU
  rw [if_pos ⟨hM, hF⟩] at hcp
  have hfe1 : (fe.executeRun conn cbp rhd netRes).fe = { fe with _fields := [] } := by
    rw [he]
  have hconn1 : (fe.executeRun conn cbp rhd netRes).conn = connF := by
    rw [he]
  have hcalls1 : (fe.executeRun conn cbp rhd netRes).calls = callsOf fe rhd := by
    rw [he]
  obtain ⟨connF2, hp2, he2, hhF2, hcp2⟩ :=
    executeRun_char { fe with _fields := [] } connF cbp rhd netRes2
      (by simpa using hOpen) hhF (by simpa using hU)
  refine ⟨hfe1, ?_, ?_, ?_, ?_⟩
  · rw [hcalls1]
    simp [callsOf, hM, hF]
  · rw [hconn1]
    exact hcp
  · intro fs
    rw [hfe1, hconn1, he2]
    by_cases hhh : fe._headers = [] <;> simp [callsOf, hhh]
  · rw [hfe1, hconn1, he2]
    dsimp only
    rw [hcp2, if_neg (by simp)]
    exact hcp

/-- Witness for C2 (amended): the concrete POST front-end consumes its
fields and stores body `a=1` on the shared connection. -/
theorem c2_amended_witness :
    (feFix.executeRun connFix "" false (.ok (0 : Int))).fe
        = { feFix with _fields := [] }
    ∧ (feFix.executeRun connFix "" false (.ok (0 : Int))).conn._pimpl._options
        COpt.COPYPOSTFIELDS = some (fieldsString [("a", "1")]) := by
  obtain ⟨h1, _, h3, _, _⟩ :=
    c2_amended_fields_consumed_body_persists feFix connFix "" false
      (.ok (0 : Int)) (.ok (0 : Int)) rfl rfl (by decide) (by decide) (by decide)
  exact ⟨h1, h3⟩

/-- C8: when `execute` fails, the front-end remains open and the parameters
already pushed onto the shared connection remain set (no rollback on the
error path).  Case (i): the network exchange itself fails (connection
error) — every parameter was pushed and the shared connection keeps all of
them; the front-end stays open (only its consumed pending fields were
cleared).  Case (ii): the first push (`set_url` on the shared connection)
fails — nothing was pushed, the shared connection and the front-end are
both exactly as before, and the front-end stays open. -/
theorem c8_execute_failure_no_rollback {ρ : Type} (fe : SharedConn)
    (conn : HTTPConn) (cbp : String) (rhd : Bool) (e : Err)
    (netRes : Except Err ρ)
    (hOpen : fe._is_open = true) :
    ((conn._pimpl._handle = true →
      (strStarts "http://" fe._url || strStarts "https://" fe._url) = true →
      ∃ connF, pushAll fe conn cbp = .ok connF
        ∧ fe.executeRun conn cbp rhd (Except.error e : Except Err ρ)
            = ExecOut.mk { fe with _fields := [] } connF (callsOf fe rhd)
                (Except.error e)
        ∧ ({ fe with _fields := [] } : SharedConn)._is_open = true))
    ∧ (HTTPConn.set_url conn cbp fe._url = .error e →
        fe.executeRun conn cbp rhd netRes = ExecOut.mk fe conn [] (.error e)) := by
  constructor
  · intro hH hU
    obtain ⟨connF, hp, he, _, _⟩ :=
      executeRun_char fe conn cbp rhd (Except.error e) hOpen hH hU
    exact ⟨connF, hp, he, hOpen⟩
  · intro herr
    unfold SharedConn.executeRun
    simp only [hOpen, Bool.true_eq_false, if_false]
    rw [herr]

/-- Witness for C8: a concrete connection error leaves the front-end open
and the error is surfaced unchanged. -/
theorem c8_witness :
    (feFix.executeRun connFix "" false
        (Except.error (Err.connErr 7 "boom") : Except Err Int)).fe._is_open = true
    ∧ (feFix.executeRun connFix "" false
        (Except.error (Err.connErr 7 "boom") : Except Err Int)).out
        = Except.error (Err.connErr 7 "boom") := by
  obtain ⟨h1, _⟩ := c8_execute_failure_no_rollback feFix connFix "" false
    (Err.connErr 7 "boom") (Except.error (Err.connErr 7 "boom") : Except Err Int) rfl
  obtain ⟨connF, hp, he, hopen⟩ := h1 rfl (by decide)
  rw [he]
  exact ⟨hopen, rfl⟩

/- ----------------------------------------------------------------------
Whole-system model: a registry plus the live front-ends, acted on by the
five lifecycle operations of the claims (construction, copy-construction,
copy-assignment, close, destruction).
---------------------------------------------------------------------- -/

/-- Returns 1 when the front-end is open and bound to `id`, else 0. -/
def contrib (c : SharedConn) (id : Int) : Nat :=
  if c._is_open = true ∧ c._id = id then 1 else 0

/-- Number of open front-ends bound to `id` in a list. -/
def countOpen (l : List SharedConn) (id : Int) : Nat :=
  (l.map fun c => contrib c id).sum

theorem countOpen_append (l1 l2 : List SharedConn) (id : Int) :
    countOpen (l1 ++ l2) id = countOpen l1 id + countOpen l2 id := by
  simp [countOpen]

theorem countOpen_cons (c : SharedConn) (l : List SharedConn) (id : Int) :
    countOpen (c :: l) id = contrib c id + countOpen l id := by
  simp [countOpen]

theorem countOpen_set (l : List SharedConn) (i : Nat) (c0 c : SharedConn)
    (id : Int) (h : l[i]? = some c0) :
    countOpen (l.set i c) id + contrib c0 id
      = countOpen l id + contrib c id := by
  induction l generalizing i with
  | nil => simp at h
  | cons a l ih =>
    cases i with
    | zero =>
      simp only [List.getElem?_cons_zero, Option.some.injEq] at h
      subst h
      simp only [List.set_cons_zero, countOpen_cons]
      omega
    | succ n =>
      simp only [List.getElem?_cons_succ] at h
      have hih := ih n h
      simp only [List.set_cons_succ, countOpen_cons]
      omega

theorem countOpen_eraseIdx (l : List SharedConn) (i : Nat) (c0 : SharedConn)
    (id : Int) (h : l[i]? = some c0) :
    countOpen (l.eraseIdx i) id + contrib c0 id = countOpen l id := by
  induction l generalizing i with
  | nil => simp at h
  | cons a l ih =>
    cases i with
    | zero =>
      simp only [List.getElem?_cons_zero, Option.some.injEq] at h
      subst h
      simp only [List.eraseIdx_cons_zero, countOpen_cons]
      omega
    | succ n =>
      simp only [List.getElem?_cons_succ] at h
      have hih := ih n h
      simp only [List.eraseIdx_cons_succ, countOpen_cons]
      omega

/-- Whole-system state: the process-wide registry and the live front-ends. -/
structure Sys where
  contexts : Registry
  fes : List SharedConn

/-- The five front-end lifecycle operations, by position in the live list. -/
inductive Op where
  | construct (url : String) (meth : HttpMethod) (id : Int)
  | copy (i : Nat)
  | assignOp (i j : Nat)
  | closeOp (i : Nat)
  | destroy (i : Nat)

/-- One lifecycle operation.  An out-of-range index is a no-op (there is no
such front-end); a failed construction adds no front-end; an `assert`
failure (`Option.none` from the lifecycle functions) aborts the process, so
the state is left as is.  The destructor is modelled from the spec (the
`SharedHTTPConnection` destructor is declared in the header): it closes the
front-end (decrementing while open) and removes it from the live list. -/
def Sys.step (cbp : String) (s : Sys) : Op → Sys
  | .construct url meth id =>
    let r := mkShared s.contexts cbp url meth id
    { contexts := r.1, fes := s.fes ++ r.2.toList }
  | .copy i =>
    match s.fes[i]? with
    | Option.none => s
    | some c =>
      let r := c.copyCtor s.contexts
      { contexts := r.1, fes := s.fes ++ r.2.toList }
  | .assignOp i j =>
    match s.fes[i]?, s.fes[j]? with
    | some tgt, some src =>
      let r := SharedConn.assign tgt src s.contexts
      { contexts := r.1,
        fes := match r.2 with
               | some res => s.fes.set i res
               | Option.none => s.fes }
    | _, _ => s
  | .closeOp i =>
    match s.fes[i]? with
    | Option.none => s
    | some c =>
      let r := c.close s.contexts
      { contexts := r.1,
        fes := match r.2 with
               | some c2 => s.fes.set i c2
               | Option.none => s.fes }
  | .destroy i =>
    match s.fes[i]? with
    | Option.none => s
    | some c =>
      let r := c.close s.contexts
      { contexts := r.1,
        fes := match r.2 with
               | some _ => s.fes.eraseIdx i
               | Option.none => s.fes }

/-- The empty initial state (process start: no entries, no front-ends). -/
def sysInit : Sys := { contexts := regEmpty, fes := [] }

/-- Run a sequence of lifecycle operations from the initial state. -/
def Sys.run (cbp : String) (ops : List Op) : Sys :=
  ops.foldl (Sys.step cbp) sysInit

/-- The registry/refcount invariant of C1. -/
def RegInv (s : Sys) : Prop :=
  ∀ id, nconnections s.contexts id = (countOpen s.fes id : Int)
    ∧ ((s.contexts id).isSome ↔ 0 < countOpen s.fes id)

theorem incr_ref_spec (contexts : Registry) (id : Int) (r2 : Registry)
    (h : incr_ref contexts id = some r2) :
    nconnections r2 id = nconnections contexts id + 1
    ∧ (r2 id).isSome = true
    ∧ (contexts id).isSome = true
    ∧ ∀ j, j ≠ id → r2 j = contexts j := by
  unfold incr_ref at h
  cases hc : contexts id with
  | none => rw [hc] at h; cases h
  | some ctx =>
    rw [hc] at h
    injection h with h
    subst h
    refine ⟨by simp [nconnections, regSet, hc], by simp [regSet],
            by simp [hc], ?_⟩
    intro j hj
    simp [regSet, hj]

theorem decr_ref_spec (contexts : Registry) (id : Int) (r2 : Registry)
    (h : decr_ref contexts id = some r2) :
    ∃ ctx, contexts id = some ctx ∧ 1 ≤ ctx.nref
      ∧ nconnections r2 id = ctx.nref - 1
      ∧ ((r2 id).isSome ↔ ctx.nref ≠ 1)
      ∧ ∀ j, j ≠ id → r2 j = contexts j := by
  unfold decr_ref at h
  cases hc : contexts id with
  | none => rw [hc] at h; cases h
  | some ctx =>
    rw [hc] at h
    dsimp only at h
    by_cases h1 : ctx.nref - 1 < 0
    · rw [if_pos h1] at h; cases h
    · rw [if_neg h1] at h
      by_cases h2 : ctx.nref - 1 = 0
      · rw [if_pos h2] at h
        injection h with h
        subst h
        refine ⟨ctx, rfl, by omega, by simp [nconnections, regSet]; omega,
                by simp [regSet]; omega, ?_⟩
        intro j hj
        simp [regSet, hj]
      · rw [if_neg h2] at h
        injection h with h
        subst h
        refine ⟨ctx, rfl, by omega, by simp [nconnections, regSet],
                by simp [regSet]; omega, ?_⟩
        intro j hj
        simp [regSet, hj]

theorem countOpen_singleton (c : SharedConn) (id : Int) :
    countOpen [c] id = contrib c id := by
  simp [countOpen]

theorem mkShared_cases (contexts : Registry) (cbp url : String)
    (meth : HttpMethod) (id : Int) :
    ((mkShared contexts cbp url meth id).2 = Option.none
      ∧ ∀ j, nconnections (mkShared contexts cbp url meth id).1 j
            = nconnections contexts j
        ∧ (((mkShared contexts cbp url meth id).1 j).isSome
            ↔ (contexts j).isSome))
    ∨ ((mkShared contexts cbp url meth id).2
          = some (SharedConn.mk true url meth [] [] 0 id)
      ∧ nconnections (mkShared contexts cbp url meth id).1 id
          = nconnections contexts id + 1
      ∧ (((mkShared contexts cbp url meth id).1 id).isSome = true)
      ∧ ∀ j, j ≠ id → (mkShared contexts cbp url meth id).1 j = contexts j) := by
  unfold mkShared
  cases hc : contexts id with
  | none =>
    cases hcons : (if url = "" then HTTPConn.construct meth
                   else HTTPConn.constructUrl cbp url meth) with
    | error e =>
      dsimp only
      exact Or.inl ⟨rfl, fun j => ⟨rfl, Iff.rfl⟩⟩
    | ok conn =>
      dsimp only
      have hincr : incr_ref (regSet contexts id (some (Ctx.mk conn 0))) id
          = some (regSet (regSet contexts id (some (Ctx.mk conn 0))) id
              (some (Ctx.mk conn (0 + 1)))) := by
        simp [incr_ref, regSet]
      rw [hincr]
      dsimp only
      refine Or.inr ⟨rfl, ?_, ?_, ?_⟩
      · simp [nconnections, regSet, hc]
      · simp [regSet]
      · intro j hj
        simp [regSet, hj]
  | some ctx =>
    dsimp only
    by_cases hle : ctx.nref ≤ 0
    · rw [if_pos hle]
      exact Or.inl ⟨rfl, fun j => ⟨rfl, Iff.rfl⟩⟩
    · rw [if_neg hle]
      cases hm : ctx.conn.set_method meth with
      | error e =>
        dsimp only
        exact Or.inl ⟨rfl, fun j => ⟨rfl, Iff.rfl⟩⟩
      | ok conn1 =>
        dsimp only
        cases hu : (if url ≠ "" then (conn1.set_url cbp url).map (fun p => p.1)
                    else Except.ok conn1) with
        | error e =>
          dsimp only
          refine Or.inl ⟨rfl, ?_⟩
          intro j
          by_cases hj : j = id
          · subst hj
            constructor
            · simp [nconnections, regSet, hc]
            · simp [regSet, hc]
          · constructor
            · simp [nconnections, regSet, hj]
            · simp [regSet, hj]
        | ok conn2 =>
          dsimp only
          have hincr : incr_ref (regSet contexts id (some (Ctx.mk conn2 ctx.nref))) id
              = some (regSet (regSet contexts id (some (Ctx.mk conn2 ctx.nref))) id
                  (some (Ctx.mk conn2 (ctx.nref + 1)))) := by
            simp [incr_ref, regSet]
          rw [hincr]
          dsimp only
          refine Or.inr ⟨rfl, ?_, ?_, ?_⟩
          · simp [nconnections, regSet, hc]
          · simp [regSet]
          · intro j hj
            simp [regSet, hj]

theorem regInv_construct (cbp url : String) (meth : HttpMethod) (id : Int)
    (s : Sys) (h : RegInv s) :
    RegInv (s.step cbp (Op.construct url meth id)) := by
  dsimp only [Sys.step]
  rcases mkShared_cases s.contexts cbp url meth id with
    ⟨hsnd, hreg⟩ | ⟨hsnd, hncon, hsome, hother⟩
  · rw [hsnd]
    intro j
    obtain ⟨e1, e2⟩ := hreg j
    obtain ⟨g1, g2⟩ := h j
    simp only [Option.toList_none, List.append_nil]
    exact ⟨by rw [e1, g1], by rw [e2, g2]⟩
  · rw [hsnd]
    intro j
    simp only [Option.toList_some]
    rw [countOpen_append, countOpen_singleton]
    by_cases hj : j = id
    · rw [hj]
      have hcb : contrib (SharedConn.mk true url meth [] [] 0 id) id = 1 := by
        simp [contrib]
      rw [hcb]
      obtain ⟨g1, g2⟩ := h id
      constructor
      · rw [hncon, g1]
        push_cast
        ring
      · rw [hsome]
        constructor
        · intro _
          omega
        · intro _
          rfl
    · have hcb : contrib (SharedConn.mk true url meth [] [] 0 id) j = 0 := by
        rw [contrib, if_neg]
        intro hcontra
        exact hj hcontra.2.symm
      rw [hcb]
      obtain ⟨g1, g2⟩ := h j
      have hoj := hother j hj
      constructor
      · rw [nconnections, hoj, ← nconnections, g1]
        push_cast
        ring
      · rw [hoj, g2]
        constructor
        · intro hx
          omega
        · intro hx
          omega

theorem regInv_copy (cbp : String) (i : Nat) (s : Sys) (h : RegInv s) :
    RegInv (s.step cbp (Op.copy i)) := by
  dsimp only [Sys.step]
  cases hi : s.fes[i]? with
  | none => exact h
  | some c =>
    dsimp only
    unfold SharedConn.copyCtor
    by_cases hopen : c._is_open = true
    · simp only [hopen, if_pos]
      cases hincr : incr_ref s.contexts c._id with
      | none =>
        dsimp only
        intro j
        obtain ⟨g1, g2⟩ := h j
        simpa using ⟨g1, g2⟩
      | some r2 =>
        dsimp only
        obtain ⟨hn1, hs1, hs0, hoth⟩ := incr_ref_spec _ _ _ hincr
        intro j
        simp only [Option.toList_some]
        rw [countOpen_append, countOpen_singleton]
        by_cases hj : j = c._id
        · rw [hj]
          have hcb : contrib c c._id = 1 := by simp [contrib, hopen]
          rw [hcb]
          obtain ⟨g1, g2⟩ := h c._id
          constructor
          · rw [hn1, g1]
            push_cast
            ring
          · rw [hs1]
            simp only [true_iff]
            omega
        · have hcb : contrib c j = 0 := by
            rw [contrib, if_neg]
            intro hcon
            exact hj hcon.2.symm
          rw [hcb]
          obtain ⟨g1, g2⟩ := h j
          have hoj := hoth j hj
          constructor
          · rw [nconnections, hoj, ← nconnections, g1]
            push_cast
            ring
          · rw [hoj, g2]
            omega
    · rw [if_neg hopen]
      dsimp only
      intro j
      simp only [Option.toList_some]
      rw [countOpen_append, countOpen_singleton]
      have hcb : contrib c j = 0 := by
        rw [contrib, if_neg]
        intro hcon
        exact hopen hcon.1
      rw [hcb]
      obtain ⟨g1, g2⟩ := h j
      constructor
      · rw [g1]
        push_cast
        ring
      · rw [g2]
        omega

theorem regInv_close (cbp : String) (i : Nat) (s : Sys) (h : RegInv s) :
    RegInv (s.step cbp (Op.closeOp i)) := by
  dsimp only [Sys.step]
  cases hi : s.fes[i]? with
  | none => exact h
  | some c =>
    dsimp only
    unfold SharedConn.close
    by_cases hopen : c._is_open = false
    · rw [if_pos hopen]
      dsimp only
      intro j
      dsimp only
      obtain ⟨g1, g2⟩ := h j
      have hset := countOpen_set s.fes i c c j hi
      constructor
      · rw [g1]
        omega
      · rw [g2]
        omega
    · rw [if_neg hopen]
      have hopen2 : c._is_open = true := by
        revert hopen
        cases c._is_open <;> simp
      cases hd : decr_ref s.contexts c._id with
      | none =>
        dsimp only
        exact h
      | some r2 =>
        dsimp only
        obtain ⟨ctx, hctx, hpos, hn2, hiff, hoth⟩ := decr_ref_spec _ _ _ hd
        intro j
        dsimp only
        have hset := countOpen_set s.fes i c { c with _is_open := false } j hi
        have hcc : contrib { c with _is_open := false } j = 0 := by
          rw [contrib, if_neg]
          rintro ⟨hx, _⟩
          simp at hx
        rw [hcc] at hset
        by_cases hj : j = c._id
        · rw [hj] at hset ⊢
          have hcb : contrib c c._id = 1 := by simp [contrib, hopen2]
          rw [hcb] at hset
          obtain ⟨g1, g2⟩ := h c._id
          have hnc : nconnections s.contexts c._id = ctx.nref := by
            rw [nconnections, hctx]
          rw [hnc] at g1
          constructor
          · rw [hn2]
            omega
          · rw [hiff]
            omega
        · have hcb : contrib c j = 0 := by
            rw [contrib, if_neg]
            rintro ⟨_, hx⟩
            exact hj hx.symm
          rw [hcb] at hset
          obtain ⟨g1, g2⟩ := h j
          have hoj := hoth j hj
          constructor
          · rw [nconnections, hoj, ← nconnections, g1]
            omega
          · rw [hoj, g2]
            omega

theorem regInv_destroy (cbp : String) (i : Nat) (s : Sys) (h : RegInv s) :
    RegInv (s.step cbp (Op.destroy i)) := by
  dsimp only [Sys.step]
  cases hi : s.fes[i]? with
  | none => exact h
  | some c =>
    dsimp only
    unfold SharedConn.close
    by_cases hopen : c._is_open = false
    · rw [if_pos hopen]
      dsimp only
      intro j
      dsimp only
      obtain ⟨g1, g2⟩ := h j
      have hset := countOpen_eraseIdx s.fes i c j hi
      have hcb : contrib c j = 0 := by
        rw [contrib, if_neg]
        rintro ⟨hx, _⟩
        rw [hopen] at hx
        exact Bool.noConfusion hx
      rw [hcb] at hset
      constructor
      · rw [g1]
        omega
      · rw [g2]
        omega
    · rw [if_neg hopen]
      have hopen2 : c._is_open = true := by
        revert hopen
        cases c._is_open <;> simp
      cases hd : decr_ref s.contexts c._id with
      | none =>
        dsimp only
        exact h
      | some r2 =>
        dsimp only
        obtain ⟨ctx, hctx, hpos, hn2, hiff, hoth⟩ := decr_ref_spec _ _ _ hd
        intro j
        dsimp only
        have hset := countOpen_eraseIdx s.fes i c j hi
        by_cases hj : j = c._id
        · rw [hj] at hset ⊢
          have hcb : contrib c c._id = 1 := by simp [contrib, hopen2]
          rw [hcb] at hset
          obtain ⟨g1, g2⟩ := h c._id
          have hnc : nconnections s.contexts c._id = ctx.nref := by
            rw [nconnections, hctx]
          rw [hnc] at g1
          constructor
          · rw [hn2]
            omega
          · rw [hiff]
            omega
        · have hcb : contrib c j = 0 := by
            rw [contrib, if_neg]
            rintro ⟨_, hx⟩
            exact hj hx.symm
          rw [hcb] at hset
          obtain ⟨g1, g2⟩ := h j
          have hoj := hoth j hj
          constructor
          · rw [nconnections, hoj, ← nconnections, g1]
            omega
          · rw [hoj, g2]
            omega

theorem regInv_assign (cbp : String) (i j0 : Nat) (s : Sys) (h : RegInv s) :
    RegInv (s.step cbp (Op.assignOp i j0)) := by
  dsimp only [Sys.step]
  cases hi : s.fes[i]? with
  | none => exact h
  | some tgt =>
    cases hj0 : s.fes[j0]? with
    | none =>
      dsimp only
      exact h
    | some src =>
      dsimp only
      unfold SharedConn.assign
      by_cases heq : tgt = src
      · rw [if_pos heq]
        dsimp only
        intro j
        dsimp only
        obtain ⟨g1, g2⟩ := h j
        have hset := countOpen_set s.fes i tgt tgt j hi
        constructor
        · rw [g1]
          omega
        · rw [g2]
          omega
      · rw [if_neg heq]
        by_cases hflag : tgt._is_open ≠ src._is_open
        · rw [if_pos hflag]
          by_cases hsrc : src._is_open = true
          · rw [if_pos hsrc]
            have htgt : tgt._is_open = false := by
              revert hflag
              rw [hsrc]
              cases tgt._is_open <;> simp
            cases hincr : incr_ref s.contexts src._id with
            | none =>
              dsimp only
              exact h
            | some r2 =>
              dsimp only
              obtain ⟨hn1, hs1, hs0, hoth⟩ := incr_ref_spec _ _ _ hincr
              intro j
              dsimp only
              obtain ⟨g1, g2⟩ := h j
              have hset := countOpen_set s.fes i tgt src j hi
              have hct : contrib tgt j = 0 := by
                rw [contrib, if_neg]
                rintro ⟨hx, _⟩
                rw [htgt] at hx
                exact Bool.noConfusion hx
              rw [hct] at hset
              by_cases hj : j = src._id
              · rw [hj] at hset g1 g2 ⊢
                have hcs : contrib src src._id = 1 := by simp [contrib, hsrc]
                rw [hcs] at hset
                constructor
                · rw [hn1, g1]
                  omega
                · rw [hs1]
                  simp only [true_iff]
                  omega
              · have hcs : contrib src j = 0 := by
                  rw [contrib, if_neg]
                  rintro ⟨_, hx⟩
                  exact hj hx.symm
                rw [hcs] at hset
                have hoj := hoth j hj
                constructor
                · rw [nconnections, hoj, ← nconnections, g1]
                  omega
                · rw [hoj, g2]
                  omega
          · rw [if_neg hsrc]
            have hsrc2 : src._is_open = false := by
              revert hsrc
              cases src._is_open <;> simp
            have htgt : tgt._is_open = true := by
              revert hflag
              rw [hsrc2]
              cases tgt._is_open <;> simp
            cases hd : decr_ref s.contexts tgt._id with
            | none =>
              dsimp only
              exact h
            | some r2 =>
              dsimp only
              obtain ⟨ctx, hctx, hpos, hn2, hiff2, hoth2⟩ := decr_ref_spec _ _ _ hd
              intro j
              dsimp only
              obtain ⟨g1, g2⟩ := h j
              have hset := countOpen_set s.fes i tgt src j hi
              have hcs : contrib src j = 0 := by
                rw [contrib, if_neg]
                rintro ⟨hx, _⟩
                rw [hsrc2] at hx
                exact Bool.noConfusion hx
              rw [hcs] at hset
              by_cases hj : j = tgt._id
              · rw [hj] at hset g1 g2 ⊢
                have hct : contrib tgt tgt._id = 1 := by simp [contrib, htgt]
                rw [hct] at hset
                have hnc : nconnections s.contexts tgt._id = ctx.nref := by
                  rw [nconnections, hctx]
                rw [hnc] at g1
                constructor
                · rw [hn2]
                  omega
                · rw [hiff2]
                  omega
              · have hct : contrib tgt j = 0 := by
                  rw [contrib, if_neg]
                  rintro ⟨_, hx⟩
                  exact hj hx.symm
                rw [hct] at hset
                have hoj := hoth2 j hj
                constructor
                · rw [nconnections, hoj, ← nconnections, g1]
                  omega
                · rw [hoj, g2]
                  omega
        · rw [if_neg hflag]
          by_cases hcond : tgt._id ≠ src._id ∧ tgt._is_open = true
          · rw [if_pos hcond]
            have hflag2 : tgt._is_open = src._is_open := not_ne_iff.mp hflag
            have hsrc : src._is_open = true := by
              rw [← hflag2]
              exact hcond.2
            cases hd : decr_ref s.contexts tgt._id with
            | none =>
              dsimp only
              exact h
            | some r2 =>
              dsimp only
              cases hincr : incr_ref r2 src._id with
              | none =>
                dsimp only
                exact h
              | some r3 =>
                dsimp only
                obtain ⟨ctx, hctx, hpos, hn2, hiff2, hoth2⟩ := decr_ref_spec _ _ _ hd
                obtain ⟨hn3, hs3, hs3b, hoth3⟩ := incr_ref_spec _ _ _ hincr
                intro j
                dsimp only
                obtain ⟨g1, g2⟩ := h j
                have hset := countOpen_set s.fes i tgt src j hi
                by_cases hj1 : j = src._id
                · rw [hj1] at hset g1 g2 ⊢
                  have hct : contrib tgt src._id = 0 := by
                    rw [contrib, if_neg]
                    rintro ⟨_, hx⟩
                    exact hcond.1 hx
                  have hcs : contrib src src._id = 1 := by simp [contrib, hsrc]
                  rw [hct, hcs] at hset
                  have hr2 : r2 src._id = s.contexts src._id :=
                    hoth2 src._id (fun hx => hcond.1 hx.symm)
                  have hn2b : nconnections r2 src._id
                      = nconnections s.contexts src._id := by
                    rw [nconnections, hr2, ← nconnections]
                  constructor
                  · rw [hn3, hn2b, g1]
                    omega
                  · rw [hs3]
                    simp only [true_iff]
                    omega
                · by_cases hj2 : j = tgt._id
                  · rw [hj2] at hset g1 g2 ⊢
                    have hct : contrib tgt tgt._id = 1 := by
                      simp [contrib, hcond.2]
                    have hcs : contrib src tgt._id = 0 := by
                      rw [contrib, if_neg]
                      rintro ⟨_, hx⟩
                      exact hcond.1 hx.symm
                    rw [hct, hcs] at hset
                    have hr3 : r3 tgt._id = r2 tgt._id := hoth3 tgt._id hcond.1
                    have hnc : nconnections s.contexts tgt._id = ctx.nref := by
                      rw [nconnections, hctx]
                    rw [hnc] at g1
                    constructor
                    · rw [nconnections, hr3, ← nconnections, hn2]
                      omega
                    · rw [hr3, hiff2]
                      omega
                  · have hct : contrib tgt j = 0 := by
                      rw [contrib, if_neg]
                      rintro ⟨_, hx⟩
                      exact hj2 hx.symm
                    have hcs : contrib src j = 0 := by
                      rw [contrib, if_neg]
                      rintro ⟨_, hx⟩
                      exact hj1 hx.symm
                    rw [hct, hcs] at hset
                    have hr3 : r3 j = s.contexts j := by
                      rw [hoth3 j hj1, hoth2 j hj2]
                    constructor
                    · rw [nconnections, hr3, ← nconnections, g1]
                      omega
                    · rw [hr3, g2]
                      omega
          · rw [if_neg hcond]
            dsimp only
            intro j
            dsimp only
            obtain ⟨g1, g2⟩ := h j
            have hset := countOpen_set s.fes i tgt src j hi
            have hflag2 : tgt._is_open = src._is_open := not_ne_iff.mp hflag
            have hcc : contrib tgt j = contrib src j := by
              by_cases hto : tgt._is_open = true
              · have hso : src._is_open = true := by
                  rw [← hflag2]
                  exact hto
                have hid : tgt._id = src._id := by
                  by_contra hne2
                  exact hcond ⟨hne2, hto⟩
                rw [contrib, contrib, hto, hso, hid]
              · have hto2 : tgt._is_open = false := by
                  revert hto
                  cases tgt._is_open <;> simp
                have hso2 : src._is_open = false := by
                  rw [← hflag2]
                  exact hto2
                rw [contrib, contrib, if_neg, if_neg]
                · rintro ⟨hx, _⟩
                  rw [hso2] at hx
                  exact Bool.noConfusion hx
                · rintro ⟨hx, _⟩
                  rw [hto2] at hx
                  exact Bool.noConfusion hx
            rw [hcc] at hset
            constructor
            · rw [g1]
              omega
            · rw [g2]
              omega

theorem regInv_step (cbp : String) (s : Sys) (op : Op) (h : RegInv s) :
    RegInv (s.step cbp op) := by
  cases op with
  | construct url meth id => exact regInv_construct cbp url meth id s h
  | copy i => exact regInv_copy cbp i s h
  | assignOp i j => exact regInv_assign cbp i j s h
  | closeOp i => exact regInv_close cbp i s h
  | destroy i => exact regInv_destroy cbp i s h

theorem regInv_init : RegInv sysInit := by
  intro j
  constructor
  · simp [nconnections, sysInit, regEmpty, countOpen]
  · simp [sysInit, regEmpty, countOpen]

theorem regInv_run (cbp : String) (ops : List Op) : RegInv (Sys.run cbp ops) := by
  rw [Sys.run]
  have hgen : ∀ (l : List Op) (s : Sys), RegInv s → RegInv (l.foldl (Sys.step cbp) s) := by
    intro l
    induction l with
    | nil =>
      intro s hs
      exact hs
    | cons op l ih =>
      intro s hs
      exact ih _ (regInv_step cbp s op hs)
  exact hgen ops sysInit regInv_init

/-- C1: after any sequence of front-end lifecycle operations (construction,
copy-construction, copy-assignment, close, destruction) from process start,
for every context id the registry diagnostic `nconnections(id)` equals the
number of front-end instances currently in the open state bound to that id,
and the registry map contains an entry for the id exactly when that number
is positive — the entry is erased in the very step in which the count
reaches zero, since the invariant holds after every step. -/
theorem c1_registry_refcount_invariant (cbp : String) (ops : List Op) (id : Int) :
    nconnections (Sys.run cbp ops).contexts id
        = (countOpen (Sys.run cbp ops).fes id : Int)
    ∧ (((Sys.run cbp ops).contexts id).isSome
        ↔ 0 < countOpen (Sys.run cbp ops).fes id) :=
  regInv_run cbp ops id

/-- Fixture: construct on id 4, copy it, close the original. -/
def c1Ops : List Op :=
  [Op.construct "http://a" HttpMethod.http_get 4, Op.copy 0, Op.closeOp 0]

/-- Witness for C1: after construct/copy/close on id 4 the count is 1 and
matches the single remaining open front-end, with the entry present. -/
theorem c1_witness :
    (nconnections (Sys.run "" c1Ops).contexts 4
        = (countOpen (Sys.run "" c1Ops).fes 4 : Int)
      ∧ (((Sys.run "" c1Ops).contexts 4).isSome
          ↔ 0 < countOpen (Sys.run "" c1Ops).fes 4))
    ∧ nconnections (Sys.run "" c1Ops).contexts 4 = 1
    ∧ countOpen (Sys.run "" c1Ops).fes 4 = 1 :=
  ⟨c1_registry_refcount_invariant "" c1Ops 4, by decide, by decide⟩

/-- Fixture: two front-ends on ids 1 and 2; the first is then closed. -/
def c7Ops : List Op :=
  [Op.construct "http://a" HttpMethod.http_get 1,
   Op.construct "http://b" HttpMethod.http_get 2,
   Op.closeOp 0]

/-- C7 counterexample: after `close`, front-end 0 is closed — but
copy-assigning the open front-end 1 onto it (curl_connect.cpp:679-704,
the `_is_open != connection._is_open` branch) makes it open again, so
"no operation transitions a closed front-end back to open" is false:
copy-assignment from an open source does. -/
theorem c7_counterexample_assign_reopens :
    ((Sys.run "" c7Ops).fes[0]?).map (fun c => c._is_open) = some false
    ∧ ((Sys.run "" (c7Ops ++ [Op.assignOp 0 1])).fes[0]?).map
        (fun c => c._is_open) = some true :=
  ⟨by decide, by decide⟩

/-- C7 (amended): `close()` on an already-closed front-end is a no-op; on an
open front-end it decrements the bound id's refcount exactly once and marks
the front-end closed, and any further `close` is again a no-op; `execute`
on a closed front-end fails with the usage error without touching anything;
`close`, copy-construction and `execute` never transition a closed
front-end back to open — the one operation that does is copy-assignment
from an open source (see C10), which transfers the source's binding. -/
theorem c7_amended_close_state_machine {ρ : Type} (c src : SharedConn)
    (contexts : Registry) (conn : HTTPConn) (cbp : String) (rhd : Bool)
    (netRes : Except Err ρ) :
    (c._is_open = false → c.close contexts = (contexts, some c))
    ∧ (c._is_open = true →
        ∀ ctx, contexts c._id = some ctx → 1 ≤ ctx.nref →
          (c.close contexts).2 = some { c with _is_open := false }
          ∧ nconnections (c.close contexts).1 c._id = ctx.nref - 1
          ∧ (∀ j, j ≠ c._id → (c.close contexts).1 j = contexts j)
          ∧ ({ c with _is_open := false } : SharedConn).close (c.close contexts).1
              = ((c.close contexts).1, some { c with _is_open := false }))
    ∧ (c._is_open = false →
        c.executeRun conn cbp rhd netRes
          = ExecOut.mk c conn [] (.error (.usage "connection has been closed")))
    ∧ (c._is_open = false → (c.copyCtor contexts).2 = some c)
    ∧ (c._is_open = false → src._is_open = false →
        ∀ r, (SharedConn.assign c src contexts).2 = some r →
          r._is_open = false) := by
  refine ⟨?_, ?_, ?_, ?_, ?_⟩
  · intro hcl
    simp [SharedConn.close, hcl]
  · intro hop ctx hctx hpos
    have hd : ∃ r2, decr_ref contexts c._id = some r2 := by
      unfold decr_ref
      rw [hctx]
      dsimp only
      by_cases hz : ctx.nref - 1 = 0
      · rw [if_neg (by omega), if_pos hz]
        exact ⟨_, rfl⟩
      · rw [if_neg (by omega), if_neg hz]
        exact ⟨_, rfl⟩
    obtain ⟨r2, hd⟩ := hd
    obtain ⟨ctx2, hctx2, hpos2, hn2, hiff2, hoth2⟩ := decr_ref_spec _ _ _ hd
    rw [hctx] at hctx2
    injection hctx2 with hctx2
    subst hctx2
    have hcl : SharedConn.close c contexts = (r2, some { c with _is_open := false }) := by
      unfold SharedConn.close
      rw [if_neg (by rw [hop]; exact fun hx => Bool.noConfusion hx), hd]
    rw [hcl]
    refine ⟨rfl, hn2, hoth2, ?_⟩
    simp [SharedConn.close]
  · intro hcl
    unfold SharedConn.executeRun
    rw [if_pos hcl]
  · intro hcl
    simp [SharedConn.copyCtor, hcl]
  · intro hcl hso r hr
    unfold SharedConn.assign at hr
    by_cases heq : c = src
    · rw [if_pos heq] at hr
      dsimp only at hr
      injection hr with hr
      rw [← hr]
      exact hcl
    · rw [if_neg heq] at hr
      have hfl : ¬(c._is_open ≠ src._is_open) := by
        rw [hcl, hso]
        simp
      rw [if_neg hfl] at hr
      have hc2 : ¬(c._id ≠ src._id ∧ c._is_open = true) := by
        rintro ⟨_, hx⟩
        rw [hcl] at hx
        exact Bool.noConfusion hx
      rw [if_neg hc2] at hr
      dsimp only at hr
      injection hr with hr
      rw [← hr]
      exact hso

/-- Witness for C7 (amended): closing the open fixture front-end (id 3,
one reference) empties the registry entry and marks it closed; a second
close is a no-op. -/
theorem c7_amended_witness :
    (c10Src.close c10Reg).2 = some { c10Src with _is_open := false }
    ∧ nconnections (c10Src.close c10Reg).1 3 = 0 := by
  obtain ⟨h1, h2, _, _⟩ :=
    (c7_amended_close_state_machine c10Src c10Src c10Reg c10Conn "" false
        (.ok (0 : Int))).2.1 rfl c10Ctx rfl (by decide)
  exact ⟨h1, by simpa using h2⟩
